import Mathlib

/-!
Verification of the boundary-enforcement core of kleo-static-files:
the path-confinement guard (safePath), the sliding-window rate limiter,
the storage-quota ledger, and the Caddy proxy route synchronizer.

Each definition is a shallow embedding of the corresponding TypeScript
source (server/paths, server/middleware/rate-limit, server/db, server/caddy).
Machine times and byte counts are modelled as Int; header maps as Option
String; fallible operations as Except.
-/

namespace KleoStaticFiles

/-! ## Path confinement guard (safePath)

The source builds on Node's POSIX path module:
`normalize(userPath)`, `resolve(base)`, `resolve(base, normalizedUser)`,
and `sep = "/"`.  We embed Node's POSIX path semantics for the case of an
absolute base (the service always passes an absolute site root; with a
relative base Node would prepend the process working directory, which is
outside this model). -/

/-- Split a character list on the separator character, keeping empty
segments, exactly as a per-character scan of the string does. -/
def splitSegsAux (sep : Char) : List Char → List Char → List String
  | [], cur => [String.mk cur.reverse]
  | c :: rest, cur =>
      if c = sep then String.mk cur.reverse :: splitSegsAux sep rest []
      else splitSegsAux sep rest (c :: cur)

/-- Split a string into its slash-separated segments. -/
def splitSegs (s : String) : List String :=
  splitSegsAux '/' s.data []

/-- One step of Node's normalizeString segment scan: empty and dot segments
are dropped; a dot-dot pops the previous real segment, stays above the root
only when `allowAboveRoot` (relative normalization), and is dropped at the
root of an absolute path. -/
def normStep (allowAboveRoot : Bool) (acc : List String) (seg : String) : List String :=
  if seg = "" || seg = "." then acc
  else if seg = ".." then
    match acc.getLast? with
    | none => if allowAboveRoot then [".."] else []
    | some l =>
        if l = ".." then (if allowAboveRoot then acc ++ [".."] else acc)
        else acc.dropLast
  else acc ++ [seg]

/-- Node's normalizeString: collapse a segment list. -/
def normalizeSegs (allowAboveRoot : Bool) (segs : List String) : List String :=
  segs.foldl (normStep allowAboveRoot) []

/-- Model of String.prototype.startsWith / Lean's semantic string prefix. -/
def strStartsWith (s pre : String) : Bool :=
  pre.data.isPrefixOf s.data

/-- Model of String.prototype.endsWith. -/
def strEndsWith (s suf : String) : Bool :=
  suf.data.isSuffixOf s.data

/-- Node path.posix.normalize. -/
def posixNormalize (p : String) : String :=
  if p = "" then "."
  else
    let isAbs := strStartsWith p "/"
    let trailing := strEndsWith p "/"
    let body := String.intercalate "/" (normalizeSegs (!isAbs) (splitSegs p))
    let body := if body ≠ "" && trailing then body ++ "/" else body
    if isAbs then "/" ++ body
    else if body = "" then "." else body

/-- Node path.posix.resolve on a single absolute path: collapse segments
with dot-dots stopped at the root, never keeping a trailing separator. -/
def resolveAbs (p : String) : String :=
  let body := String.intercalate "/" (normalizeSegs false (splitSegs p))
  if body = "" then "/" else "/" ++ body

/-- Node path.posix.resolve(base, user) for an absolute `base`: an absolute
`user` wins outright, otherwise `user` is resolved against `base`. -/
def posixResolve2 (base user : String) : String :=
  if strStartsWith user "/" then resolveAbs user
  else resolveAbs (base ++ "/" ++ user)

/-- Embedding of safePath (server path guard):
normalize the untrusted path, resolve base and path to absolute form, and
accept only when the resolved path equals the resolved base or extends it
past one separator. -/
def safePath (base userPath : String) : Option String :=
  let normalizedUser := posixNormalize userPath
  let resolvedBase := resolveAbs base
  let resolvedPath := posixResolve2 base normalizedUser
  if !(strStartsWith resolvedPath (resolvedBase ++ "/")) && resolvedPath ≠ resolvedBase
  then none
  else some resolvedPath

/-- The containment condition safePath checks: the fully resolved user path
coincides with the resolved base or lies strictly below it. -/
def insideRoot (base userPath : String) : Bool :=
  let resolvedPath := posixResolve2 base (posixNormalize userPath)
  strStartsWith resolvedPath (resolveAbs base ++ "/") || resolvedPath = resolveAbs base

/-! ## Sliding-window rate limiter (server/middleware/rate-limit)

Per identity key the store holds the list of admitted request timestamps.
One middleware invocation prunes the list to the trailing window, rejects
with a retry-after value when the retained count has reached the maximum,
and otherwise appends the current time and admits.  Times are integer
milliseconds. -/

structure RLConfig where
  windowMs : Int
  maxRequests : Nat
deriving DecidableEq, Repr

/-- Outcome of one middleware invocation.  For a limited outcome the single
retry value is what the source places in the JSON retryAfter field and in
both the Retry-After and X-RateLimit-Reset response headers; for an admitted
outcome the remaining capacity is what X-RateLimit-Remaining reports. -/
inductive RLOutcome where
  | admitted (remaining : Nat) (resetSeconds : Int)
  | limited (retryAfterSeconds : Int)
deriving DecidableEq, Repr

def RLOutcome.isAdmitted : RLOutcome → Bool
  | .admitted _ _ => true
  | .limited _ => false

def RLOutcome.isLimited : RLOutcome → Bool
  | .admitted _ _ => false
  | .limited _ => true

/-- Math.ceil(a / b) for integer a and positive integer b. -/
def ceilDivInt (a b : Int) : Int :=
  Int.fdiv (a + b - 1) b

/-- The prune step: keep the timestamps still inside the trailing window. -/
def pruneWindow (windowMs now : Int) (ts : List Int) : List Int :=
  ts.filter (fun t => now - t < windowMs)

/-- Embedding of one invocation of the rateLimit middleware for one identity
key: returns the outcome and the timestamp list stored for the key
afterwards.  On rejection the source returns before calling requests.set,
so the stored list is the one from before the call. -/
def rateLimitStep (cfg : RLConfig) (now : Int) (ts : List Int) : RLOutcome × List Int :=
  let recent := pruneWindow cfg.windowMs now ts
  if cfg.maxRequests ≤ recent.length then
    let resetTime := ceilDivInt (recent.headD 0 + cfg.windowMs - now) 1000
    (.limited resetTime, ts)
  else
    let recent2 := recent ++ [now]
    (.admitted (cfg.maxRequests - recent2.length) (ceilDivInt cfg.windowMs 1000), recent2)

/-- Run a sequence of middleware invocations for one identity key, starting
from a stored timestamp list: the list of outcomes and the final store. -/
def runRateLimiter (cfg : RLConfig) (times : List Int) (ts : List Int) :
    List RLOutcome × List Int :=
  match times with
  | [] => ([], ts)
  | now :: rest =>
      let s := rateLimitStep cfg now ts
      let r := runRateLimiter cfg rest s.2
      (s.1 :: r.1, r.2)

/-- JavaScript string-or: an absent or empty header falls through to the
default, any other value is taken as is. -/
def jsOr (v : Option String) (d : String) : String :=
  match v with
  | some s => if s = "" then d else s
  | none => d

/-- The origin address the middleware falls back to:
x-forwarded-for, else x-real-ip, else the literal "unknown". -/
def clientIp (xff xri : Option String) : String :=
  jsOr xff (jsOr xri "unknown")

/-- The identity key of a request: the Authorization header value when it is
present and nonempty, otherwise the origin address. -/
def identityKey (auth xff xri : Option String) : String :=
  jsOr auth (clientIp xff xri)

/-! ## Storage-quota ledger (server/db quota queries)

used_bytes manipulation is done by three SQL statements keyed by site name;
per tenant they are pure updates of the used_bytes integer. -/

/-- UPDATE sites SET used_bytes = ?1: overwrite the counter. -/
def updateUsedBytes (_used v : Int) : Int := v

/-- UPDATE sites SET used_bytes = used_bytes + ?1: add an upload's size. -/
def incrementUsedBytes (used d : Int) : Int := used + d

/-- UPDATE sites SET used_bytes = MAX(0, used_bytes - ?1): subtract a
deleted file's size, floored at zero. -/
def decrementUsedBytes (used d : Int) : Int := max 0 (used - d)

/-- A ledger update, as issued by the upload/delete/recount paths. -/
inductive LedgerOp where
  | setBytes (v : Int)
  | incBytes (d : Int)
  | decBytes (d : Int)
deriving DecidableEq, Repr

def applyLedgerOp (used : Int) : LedgerOp → Int
  | .setBytes v => updateUsedBytes used v
  | .incBytes d => incrementUsedBytes used d
  | .decBytes d => decrementUsedBytes used d

/-- The arguments the callers actually pass: recounts store a directory
total (nonnegative) and increments add a file size (nonnegative); a
decrement may carry any amount, the floor protects it. -/
def LedgerOp.wellFormed : LedgerOp → Prop
  | .setBytes v => 0 ≤ v
  | .incBytes d => 0 ≤ d
  | .decBytes _ => True

/-- Per-tenant quota state: ceiling and running counter. -/
structure QuotaRecord where
  quota_bytes : Int
  used_bytes : Int
deriving DecidableEq, Repr

inductive ReserveOutcome where
  | granted
  | quotaExceeded (used quota : Int)
deriving DecidableEq, Repr

/-- Modelled from the spec: the upload handler (server/index.ts, not under
src/) checks an incoming upload against the quota and records it —
"an upload that would push used_bytes above quota_bytes must be rejected
before any bytes are persisted", and the check-and-increment is atomic with
respect to concurrent reservations for the same tenant (spec 4.2).  One
reservation is therefore one atomic step on the tenant's quota record. -/
def reserve (s : QuotaRecord) (incoming : Int) : ReserveOutcome × QuotaRecord :=
  if s.quota_bytes < s.used_bytes + incoming then
    (.quotaExceeded s.used_bytes s.quota_bytes, s)
  else
    (.granted, { s with used_bytes := s.used_bytes + incoming })

/-! ## Proxy route synchronizer (server/caddy, scripts/sync-caddy) -/

/-- A tenant row as the synchronizer reads it: name, storage root, optional
basic-auth credential (username and password hash). -/
structure Tenant where
  name : String
  path : String
  auth : Option (String × String)
deriving DecidableEq, Repr

/-- A handler in a route's chain. -/
inductive Handler where
  | authentication (user hash : String)
  | file_server (root : String)
deriving DecidableEq, Repr

/-- A Caddy route as built by addSite / addSiteViaApi: stable identifier
sf-{name}, host match {name}.{domain}, and the handler chain. -/
structure CaddyRoute where
  id : String
  hostMatch : String
  handle : List Handler
deriving DecidableEq, Repr

/-- The route the source builds for one tenant: id sf-{name}, host
{name}.{domain}, an authentication handler when the tenant has a
credential, then the file server rooted at the tenant's directory. -/
def routeFor (domain : String) (t : Tenant) : CaddyRoute :=
  { id := "sf-" ++ t.name
  , hostMatch := t.name ++ "." ++ domain
  , handle :=
      (match t.auth with
       | some (u, h) => [Handler.authentication u h]
       | none => []) ++ [Handler.file_server t.path] }

/-- Modelled from the spec: scripts/sync-caddy.ts is not under src/.  The
declarative regeneration strategy (spec 4.4a) computes the full desired
route set from the registry and applies it wholesale. -/
def syncRoutes (domain : String) (tenants : List Tenant) : List CaddyRoute :=
  tenants.map (routeFor domain)

/-- Modelled from the spec: applying a sync replaces whatever route set the
proxy held before with the regenerated one. -/
def applySync (domain : String) (tenants : List Tenant) (_prev : List CaddyRoute) :
    List CaddyRoute :=
  syncRoutes domain tenants

/-- Registering a tenant in the registry: the sites table keys rows by the
unique name, so a second create for an existing name replaces the row
rather than adding a second one. -/
def upsertTenant (tenants : List Tenant) (t : Tenant) : List Tenant :=
  if tenants.any (fun u => u.name = t.name) then
    tenants.map (fun u => if u.name = t.name then t else u)
  else tenants ++ [t]

/-- What the proxy control interface answered an HTTP call with. -/
structure ProxyResponse where
  ok : Bool
  status : Nat
  text : String
deriving DecidableEq, Repr

/-- Embedding of removeSite / removeSiteViaApi: DELETE the route by its
stable id; a non-ok response is an error unless its status is 404. -/
def removeSiteResult (res : ProxyResponse) : Except String Unit :=
  if !res.ok && res.status ≠ 404 then .error ("Caddy error: " ++ res.text)
  else .ok ()

/-- Modelled from the spec: the delete-site operation (server/index.ts, not
under src/) removes the proxy route first and deletes the registry row only
when that succeeded; a route-removal failure aborts the deletion and leaves
the tenant intact (spec 4.4). -/
def deleteSite (registry : List Tenant) (name : String) (res : ProxyResponse) :
    Except String (List Tenant) :=
  match removeSiteResult res with
  | .error e => .error e
  | .ok _ => .ok (registry.filter (fun t => t.name ≠ name))

/-! ## Claims -/

/-- Helper: safePath is the total function that returns the resolved path
exactly when the containment condition holds and rejects otherwise. -/
theorem safePath_eq_cases (base userPath : String) :
    (insideRoot base userPath = true ∧
      safePath base userPath = some (posixResolve2 base (posixNormalize userPath))) ∨
    (insideRoot base userPath = false ∧ safePath base userPath = none) := by
  by_cases h1 : strStartsWith (posixResolve2 base (posixNormalize userPath)) (resolveAbs base ++ "/") = true
  · exact Or.inl ⟨by simp [insideRoot, h1], by simp [safePath, h1]⟩
  · rw [Bool.not_eq_true] at h1
    by_cases h2 : posixResolve2 base (posixNormalize userPath) = resolveAbs base
    · exact Or.inl ⟨by simp [insideRoot, h2], by simp [safePath, h2]⟩
    · exact Or.inr ⟨by simp [insideRoot, h1, h2], by simp [safePath, h1, h2]⟩

/-- C1: for every base root and user path whose normalized form resolves
inside root, safePath returns the resolved absolute path, equal to the root
or having root plus one separator as a strict prefix; every path whose
normalized form escapes root is rejected with none.  Concretely,
../etc/passwd and /etc/passwd against /var/sites/s are rejected,
a/b/../c/file.txt resolves to /var/sites/s/a/c/file.txt, and the empty
path resolves to the root itself. -/
theorem safePath_confinement :
    (∀ base userPath : String,
      (insideRoot base userPath = true →
        safePath base userPath = some (posixResolve2 base (posixNormalize userPath)) ∧
        (posixResolve2 base (posixNormalize userPath) = resolveAbs base ∨
          strStartsWith (posixResolve2 base (posixNormalize userPath))
            (resolveAbs base ++ "/") = true)) ∧
      (insideRoot base userPath = false → safePath base userPath = none)) ∧
    safePath "/var/sites/s" "../etc/passwd" = none ∧
    safePath "/var/sites/s" "/etc/passwd" = none ∧
    safePath "/var/sites/s" "a/b/../c/file.txt" = some "/var/sites/s/a/c/file.txt" ∧
    safePath "/var/sites/s" "" = some "/var/sites/s" := by
  refine ⟨fun base userPath => ⟨fun hin => ?_, fun hout => ?_⟩, by decide, by decide, by decide, by decide⟩
  · rcases safePath_eq_cases base userPath with ⟨_, hsome⟩ | ⟨hfalse, _⟩
    · refine ⟨hsome, ?_⟩
      have := hin
      simp only [insideRoot, Bool.or_eq_true, decide_eq_true_eq] at this
      tauto
    · rw [hfalse] at hin; exact absurd hin (by simp)
  · rcases safePath_eq_cases base userPath with ⟨htrue, _⟩ | ⟨_, hnone⟩
    · rw [htrue] at hout; exact absurd hout (by simp)
    · exact hnone

/-- C1 witness: a concrete in-root path is accepted and resolved. -/
theorem safePath_confinement_witness :
    insideRoot "/var/sites/s" "docs/index.html" = true ∧
    safePath "/var/sites/s" "docs/index.html" = some "/var/sites/s/docs/index.html" := by
  refine ⟨by decide, ?_⟩
  exact (((safePath_confinement.1 "/var/sites/s" "docs/index.html").1 (by decide)).1).trans (by decide)

/-- C5 counterexample: a user path with an embedded NUL byte that stays
inside the root is not rejected; safePath returns the resolved path, so the
guard does not treat NUL-containing input as invalid outright. -/
theorem safePath_nul_accepted_counterexample :
    ('\x00' ∈ "a\x00b".data) ∧
    safePath "/var/sites/s" "a\x00b" = some "/var/sites/s/a\x00b" :=
  ⟨by decide, by decide⟩

/-- C5 amended: safePath gives a NUL byte no special treatment; a user path
containing an embedded NUL is handled like any other path, rejected exactly
when its normalized form resolves outside the root. -/
theorem safePath_nul_like_any_path (base userPath : String)
    (hnul : '\x00' ∈ userPath.data) :
    (insideRoot base userPath = true →
      safePath base userPath = some (posixResolve2 base (posixNormalize userPath))) ∧
    (insideRoot base userPath = false → safePath base userPath = none) := by
  rcases safePath_eq_cases base userPath with ⟨htrue, hsome⟩ | ⟨hfalse, hnone⟩
  · refine ⟨fun _ => hsome, fun h => ?_⟩
    rw [htrue] at h
    exact Bool.noConfusion h
  · refine ⟨fun h => ?_, fun _ => hnone⟩
    rw [hfalse] at h
    exact Bool.noConfusion h

/-- C5 amended witness: the NUL-containing in-root path is accepted. -/
theorem safePath_nul_like_any_path_witness :
    ('\x00' ∈ "a\x00b".data) ∧
    safePath "/var/sites/s" "a\x00b" = some (posixResolve2 "/var/sites/s" (posixNormalize "a\x00b")) :=
  ⟨by decide, (safePath_nul_like_any_path "/var/sites/s" "a\x00b" (by decide)).1 (by decide)⟩

/-- C2: with maxRequests = 3 and windowMs = 60000, three calls for one key
inside the window are admitted, the fourth inside the window is limited
(the 429 path), and a call made more than windowMs after the first call is
admitted again. -/
theorem rateLimit_three_then_limited_then_reset (t1 t2 t3 t4 t5 : Int)
    (h12 : t1 ≤ t2) (h23 : t2 ≤ t3) (h34 : t3 ≤ t4)
    (hin : t4 - t1 < 60000) (hout : 60000 < t5 - t1) :
    ((runRateLimiter ⟨60000, 3⟩ [t1, t2, t3, t4, t5] []).1.map RLOutcome.isAdmitted)
      = [true, true, true, false, true] ∧
    ∃ r, (runRateLimiter ⟨60000, 3⟩ [t1, t2, t3, t4, t5] []).1.get? 3
      = some (RLOutcome.limited r) := by
  have e1 : rateLimitStep ⟨60000, 3⟩ t1 [] =
      (.admitted 2 (ceilDivInt 60000 1000), [t1]) := by
    simp [rateLimitStep, pruneWindow]
  have e2 : rateLimitStep ⟨60000, 3⟩ t2 [t1] =
      (.admitted 1 (ceilDivInt 60000 1000), [t1, t2]) := by
    have hk : t2 - t1 < 60000 := by omega
    simp [rateLimitStep, pruneWindow, hk]
  have e3 : rateLimitStep ⟨60000, 3⟩ t3 [t1, t2] =
      (.admitted 0 (ceilDivInt 60000 1000), [t1, t2, t3]) := by
    have hk1 : t3 - t1 < 60000 := by omega
    have hk2 : t3 - t2 < 60000 := by omega
    simp [rateLimitStep, pruneWindow, hk1, hk2]
  have e4 : rateLimitStep ⟨60000, 3⟩ t4 [t1, t2, t3] =
      (.limited (ceilDivInt (t1 + 60000 - t4) 1000), [t1, t2, t3]) := by
    have hk2 : t4 - t2 < 60000 := by omega
    have hk3 : t4 - t3 < 60000 := by omega
    simp [rateLimitStep, pruneWindow, hin, hk2, hk3]
  have hlen : (pruneWindow 60000 t5 [t1, t2, t3]).length ≤ 2 := by
    have hd : ¬ (t5 - t1 < 60000) := by omega
    have hstep : pruneWindow 60000 t5 [t1, t2, t3] = pruneWindow 60000 t5 [t2, t3] := by
      simp [pruneWindow, hd]
    rw [hstep]
    exact le_trans (List.length_filter_le _ _) (by simp)
  obtain ⟨m5, r5, l5, e5⟩ :
      ∃ m r l, rateLimitStep ⟨60000, 3⟩ t5 [t1, t2, t3] = (.admitted m r, l) := by
    have hneg : ¬ (3 ≤ (pruneWindow 60000 t5 [t1, t2, t3]).length) := by omega
    refine ⟨2 - (pruneWindow 60000 t5 [t1, t2, t3]).length, ceilDivInt 60000 1000,
      pruneWindow 60000 t5 [t1, t2, t3] ++ [t5], ?_⟩
    simp [rateLimitStep, hneg]
  refine ⟨?_, ⟨ceilDivInt (t1 + 60000 - t4) 1000, ?_⟩⟩
  · simp [runRateLimiter, e1, e2, e3, e4, e5, RLOutcome.isAdmitted]
  · simp [runRateLimiter, e1, e2, e3, e4, e5]

/-- C2 witness: the concrete run at times 0, 1, 2, 3 and 60001. -/
theorem rateLimit_three_then_limited_then_reset_witness :
    ((runRateLimiter ⟨60000, 3⟩ [0, 1, 2, 3, 60001] []).1.map RLOutcome.isAdmitted)
      = [true, true, true, false, true] ∧
    ∃ r, (runRateLimiter ⟨60000, 3⟩ [0, 1, 2, 3, 60001] []).1.get? 3
      = some (RLOutcome.limited r) :=
  rateLimit_three_then_limited_then_reset 0 1 2 3 60001
    (by decide) (by decide) (by decide) (by decide) (by decide)

/-- C7: when a call finds the retained in-window count at or above
maxRequests, the returned retry value (which the source also places in the
Retry-After and X-RateLimit-Reset headers) is the time, rounded up to whole
seconds, until the oldest retained timestamp exits the window; the stored
list is chronological, so its head is that oldest timestamp. -/
theorem rateLimit_retryAfter_oldest_exit (cfg : RLConfig) (now : Int) (ts : List Int)
    (hsort : ts.Pairwise (· ≤ ·)) (hmax : 1 ≤ cfg.maxRequests) (r : Int)
    (hlim : (rateLimitStep cfg now ts).1 = RLOutcome.limited r) :
    ∃ oldest,
      oldest ∈ pruneWindow cfg.windowMs now ts ∧
      (∀ t ∈ pruneWindow cfg.windowMs now ts, oldest ≤ t) ∧
      r = ceilDivInt (oldest + cfg.windowMs - now) 1000 := by
  by_cases hc : cfg.maxRequests ≤ (pruneWindow cfg.windowMs now ts).length
  · have hr : ceilDivInt ((pruneWindow cfg.windowMs now ts).headD 0 + cfg.windowMs - now) 1000
        = r := by
      simpa [rateLimitStep, hc] using hlim
    have hne : pruneWindow cfg.windowMs now ts ≠ [] := by
      intro h0
      rw [h0] at hc
      simp at hc
      omega
    obtain ⟨h, tl, hcons⟩ := List.exists_cons_of_ne_nil hne
    have hpair : (pruneWindow cfg.windowMs now ts).Pairwise (· ≤ ·) :=
      List.Pairwise.sublist (List.filter_sublist ts) hsort
    refine ⟨h, ?_, ?_, ?_⟩
    · rw [hcons]; exact List.mem_cons_self _ _
    · intro t ht
      rw [hcons] at ht hpair
      rcases List.mem_cons.mp ht with rfl | htl
      · exact le_refl t
      · exact (List.pairwise_cons.mp hpair).1 t htl
    · rw [← hr, hcons]
      simp
  · exfalso
    simp [rateLimitStep, hc] at hlim

/-- C7 witness: a concrete limited call with retry value 60. -/
theorem rateLimit_retryAfter_oldest_exit_witness :
    ∃ oldest,
      oldest ∈ pruneWindow (60000 : Int) 10 [5] ∧
      (∀ t ∈ pruneWindow (60000 : Int) 10 [5], oldest ≤ t) ∧
      (60 : Int) = ceilDivInt (oldest + 60000 - 10) 1000 :=
  rateLimit_retryAfter_oldest_exit ⟨60000, 1⟩ 10 [5]
    (by simp) (by decide) 60 (by decide)

/-- C8: a limited call does not record the attempt; the stored timestamp
list for the key after the call is exactly the one from before, so rejected
requests never consume window capacity. -/
theorem rateLimit_rejected_not_recorded (cfg : RLConfig) (now : Int) (ts : List Int)
    (hlim : (rateLimitStep cfg now ts).1.isLimited = true) :
    (rateLimitStep cfg now ts).2 = ts := by
  by_cases hc : cfg.maxRequests ≤ (pruneWindow cfg.windowMs now ts).length
  · simp [rateLimitStep, hc]
  · exfalso
    simp [rateLimitStep, hc, RLOutcome.isLimited] at hlim

/-- C8 witness: a concrete limited call leaves the store unchanged. -/
theorem rateLimit_rejected_not_recorded_witness :
    (rateLimitStep ⟨60000, 1⟩ 10 [5]).2 = [5] :=
  rateLimit_rejected_not_recorded ⟨60000, 1⟩ 10 [5] (by decide)

/-- C6: the identity key is the Authorization header value whenever one is
present (nonempty), and otherwise the origin address derived from the
forwarded headers; two requests with the same credential get the same key
regardless of address, and credential-less requests are keyed by their
origin address. -/
theorem identityKey_credential_else_origin :
    (∀ a xff xri, a ≠ "" → identityKey (some a) xff xri = a) ∧
    (∀ xff xri, identityKey none xff xri = clientIp xff xri) ∧
    (∀ a x1 y1 x2 y2, a ≠ "" →
      identityKey (some a) x1 y1 = identityKey (some a) x2 y2) := by
  refine ⟨fun a xff xri h => ?_, fun xff xri => rfl, fun a x1 y1 x2 y2 h => ?_⟩
  · simp [identityKey, jsOr, h]
  · simp [identityKey, jsOr, h]

/-- C6 witness: concrete keyed-by-credential and keyed-by-origin calls. -/
theorem identityKey_credential_else_origin_witness :
    identityKey (some "Bearer sk_1") (some "10.0.0.1") none = "Bearer sk_1" ∧
    identityKey none (some "10.0.0.1") none = clientIp (some "10.0.0.1") none :=
  ⟨identityKey_credential_else_origin.1 "Bearer sk_1" (some "10.0.0.1") none (by decide),
   identityKey_credential_else_origin.2.1 (some "10.0.0.1") none⟩

/-- C3: the decrement query floors used_bytes at zero for any delta, and
nonnegativity of used_bytes is preserved by every ledger update and by
every sequence of ledger updates the callers issue. -/
theorem usedBytes_never_negative :
    (∀ used d : Int, 0 ≤ decrementUsedBytes used d) ∧
    (∀ (used : Int) (op : LedgerOp), 0 ≤ used → op.wellFormed → 0 ≤ applyLedgerOp used op) ∧
    (∀ ops : List LedgerOp, (∀ op ∈ ops, op.wellFormed) →
      ∀ used : Int, 0 ≤ used → 0 ≤ ops.foldl applyLedgerOp used) := by
  have hdec : ∀ used d : Int, 0 ≤ decrementUsedBytes used d := fun used d => le_max_left 0 _
  have hop : ∀ (used : Int) (op : LedgerOp), 0 ≤ used → op.wellFormed →
      0 ≤ applyLedgerOp used op := by
    intro used op hu hw
    cases op with
    | setBytes v => exact hw
    | incBytes d => exact add_nonneg hu hw
    | decBytes d => exact hdec used d
  refine ⟨hdec, hop, ?_⟩
  intro ops
  induction ops with
  | nil => intro _ used hu; simpa using hu
  | cons op rest ih =>
      intro hwf used hu
      simp only [List.foldl_cons]
      exact ih (fun o ho => hwf o (List.mem_cons_of_mem _ ho))
        (applyLedgerOp used op) (hop used op hu (hwf op (List.mem_cons_self _ _)))

/-- C3 witness: an over-release after an upload leaves the counter at a
nonnegative value. -/
theorem usedBytes_never_negative_witness :
    0 ≤ [LedgerOp.incBytes 5, LedgerOp.decBytes 9].foldl applyLedgerOp 0 :=
  usedBytes_never_negative.2.2 [LedgerOp.incBytes 5, LedgerOp.decBytes 9]
    (by
      intro op hmem
      rcases List.mem_cons.mp hmem with rfl | hmem2
      · exact (by decide : (0 : Int) ≤ 5)
      · rcases List.mem_cons.mp hmem2 with rfl | h
        · trivial
        · cases h)
    0 le_rfl

/-- C4 counterexample: with quota_bytes = 0 the two reservations of
quota_bytes / 2 + 1 = 1 byte are both rejected, so the claimed
"exactly one Granted" fails for that quota value. -/
theorem quota_race_zero_quota_counterexample :
    (reserve ⟨0, 0⟩ (0 / 2 + 1)).1 = ReserveOutcome.quotaExceeded 0 0 ∧
    (reserve (reserve ⟨0, 0⟩ (0 / 2 + 1)).2 (0 / 2 + 1)).1
      = ReserveOutcome.quotaExceeded 0 0 := by
  decide

/-- C4 amended: for any positive quota_bytes, two reservations of
quota_bytes / 2 + 1 bytes against a fresh tenant, executed as the atomic
check-and-increment steps the spec requires (both interleavings of the two
identical atomic reservations run them in this order), produce exactly one
Granted and one QuotaExceeded. -/
theorem quota_race_exactly_one_granted (q : Int) (hq : 1 ≤ q) :
    (reserve ⟨q, 0⟩ (q / 2 + 1)).1 = ReserveOutcome.granted ∧
    (reserve (reserve ⟨q, 0⟩ (q / 2 + 1)).2 (q / 2 + 1)).1
      = ReserveOutcome.quotaExceeded (q / 2 + 1) q := by
  have h1 : ¬ (q < 0 + (q / 2 + 1)) := by omega
  have e1 : reserve ⟨q, 0⟩ (q / 2 + 1) = (ReserveOutcome.granted, ⟨q, 0 + (q / 2 + 1)⟩) := by
    simp [reserve, h1]
    omega
  have h2 : q < q / 2 + 1 + (q / 2 + 1) := by omega
  refine ⟨by rw [e1], ?_⟩
  rw [e1]
  simp [reserve, h2]

/-- C4 amended witness: the race at quota_bytes = 100. -/
theorem quota_race_exactly_one_granted_witness :
    (reserve ⟨100, 0⟩ (100 / 2 + 1)).1 = ReserveOutcome.granted ∧
    (reserve (reserve ⟨100, 0⟩ (100 / 2 + 1)).2 (100 / 2 + 1)).1
      = ReserveOutcome.quotaExceeded (100 / 2 + 1) 100 :=
  quota_race_exactly_one_granted 100 (by decide)

/-- C9: removeSite treats a 404 from the proxy as success (idempotent
delete of an already-absent route), any other non-ok response is surfaced
as an error, and the delete-site operation then aborts with that error, so
the tenant registry row is left intact. -/
theorem removeSite_tolerant_delete :
    (∀ res : ProxyResponse, res.ok = false → res.status = 404 →
      removeSiteResult res = Except.ok ()) ∧
    (∀ res : ProxyResponse, res.ok = true → removeSiteResult res = Except.ok ()) ∧
    (∀ res : ProxyResponse, res.ok = false → res.status ≠ 404 →
      removeSiteResult res = Except.error ("Caddy error: " ++ res.text)) ∧
    (∀ (registry : List Tenant) (name : String) (res : ProxyResponse),
      res.ok = false → res.status = 404 →
      deleteSite registry name res
        = Except.ok (registry.filter (fun t => t.name ≠ name))) ∧
    (∀ (registry : List Tenant) (name : String) (res : ProxyResponse),
      res.ok = false → res.status ≠ 404 →
      deleteSite registry name res = Except.error ("Caddy error: " ++ res.text)) := by
  have hok : ∀ res : ProxyResponse, res.ok = false → res.status = 404 →
      removeSiteResult res = Except.ok () := by
    intro res h1 h2
    simp [removeSiteResult, h1, h2]
  have herr : ∀ res : ProxyResponse, res.ok = false → res.status ≠ 404 →
      removeSiteResult res = Except.error ("Caddy error: " ++ res.text) := by
    intro res h1 h2
    simp [removeSiteResult, h1, h2]
  refine ⟨hok, ?_, herr, ?_, ?_⟩
  · intro res h
    simp [removeSiteResult, h]
  · intro registry name res h1 h2
    simp [deleteSite, hok res h1 h2]
  · intro registry name res h1 h2
    simp [deleteSite, herr res h1 h2]

/-- C9 witness: concrete 404-success and 500-abort responses. -/
theorem removeSite_tolerant_delete_witness :
    removeSiteResult ⟨false, 404, "unknown object id sf-s"⟩ = Except.ok () ∧
    removeSiteResult ⟨false, 500, "loading error"⟩
      = Except.error ("Caddy error: " ++ "loading error") ∧
    deleteSite [⟨"s", "/var/sites/s", none⟩] "s" ⟨false, 500, "loading error"⟩
      = Except.error ("Caddy error: " ++ "loading error") :=
  ⟨removeSite_tolerant_delete.1 ⟨false, 404, "unknown object id sf-s"⟩ rfl rfl,
   removeSite_tolerant_delete.2.2.1 ⟨false, 500, "loading error"⟩ rfl (by decide),
   removeSite_tolerant_delete.2.2.2.2 [⟨"s", "/var/sites/s", none⟩] "s"
     ⟨false, 500, "loading error"⟩ rfl (by decide)⟩

/-- C10: synchronization is idempotent — applying the regenerated route set
twice for an unchanged tenant registry yields the same route set — the
regenerated set has no duplicate route identifiers when tenant names are
unique, and registering a tenant that is already present leaves the
registry (and hence the regenerated route set) unchanged. -/
theorem sync_idempotent_no_duplicate_routes :
    (∀ (domain : String) (tenants : List Tenant) (prev : List CaddyRoute),
      applySync domain tenants (applySync domain tenants prev)
        = applySync domain tenants prev) ∧
    (∀ (domain : String) (tenants : List Tenant),
      (tenants.map Tenant.name).Nodup →
      ((syncRoutes domain tenants).map CaddyRoute.id).Nodup) ∧
    (∀ (tenants : List Tenant) (t : Tenant),
      (tenants.map Tenant.name).Nodup → t ∈ tenants →
      upsertTenant tenants t = tenants) := by
  refine ⟨fun _ _ _ => rfl, ?_, ?_⟩
  · intro domain tenants hnd
    have hmap : (syncRoutes domain tenants).map CaddyRoute.id
        = (tenants.map Tenant.name).map (fun s => "sf-" ++ s) := by
      simp [syncRoutes, routeFor, List.map_map]
    rw [hmap]
    refine List.Nodup.map ?_ hnd
    intro a b hab
    have hdata := congrArg String.data hab
    simp only [String.data_append] at hdata
    exact String.ext (List.append_cancel_left hdata)
  · intro tenants t hnd hmem
    have hany : tenants.any (fun u => u.name = t.name) = true :=
      List.any_eq_true.mpr ⟨t, hmem, by simp⟩
    have hfix : ∀ u ∈ tenants, (if u.name = t.name then t else u) = u := by
      intro u hu
      by_cases he : u.name = t.name
      · rw [if_pos he]
        exact List.inj_on_of_nodup_map hnd hmem hu he.symm
      · rw [if_neg he]
    simp only [upsertTenant, hany, if_true]
    exact (List.map_congr_left hfix).trans (List.map_id _)

/-- C10 witness: a concrete two-tenant registry. -/
theorem sync_idempotent_no_duplicate_routes_witness :
    ((syncRoutes "498as.com"
        [⟨"a", "/var/sites/a", none⟩, ⟨"b", "/var/sites/b", some ("u", "h")⟩]).map
      CaddyRoute.id).Nodup ∧
    upsertTenant [⟨"a", "/var/sites/a", none⟩, ⟨"b", "/var/sites/b", some ("u", "h")⟩]
        ⟨"a", "/var/sites/a", none⟩
      = [⟨"a", "/var/sites/a", none⟩, ⟨"b", "/var/sites/b", some ("u", "h")⟩] ∧
    applySync "498as.com" [⟨"a", "/var/sites/a", none⟩]
        (applySync "498as.com" [⟨"a", "/var/sites/a", none⟩] [])
      = applySync "498as.com" [⟨"a", "/var/sites/a", none⟩] [] :=
  ⟨sync_idempotent_no_duplicate_routes.2.1 "498as.com"
     [⟨"a", "/var/sites/a", none⟩, ⟨"b", "/var/sites/b", some ("u", "h")⟩] (by decide),
   sync_idempotent_no_duplicate_routes.2.2
     [⟨"a", "/var/sites/a", none⟩, ⟨"b", "/var/sites/b", some ("u", "h")⟩]
     ⟨"a", "/var/sites/a", none⟩ (by decide) (by decide),
   sync_idempotent_no_duplicate_routes.1 "498as.com" [⟨"a", "/var/sites/a", none⟩] []⟩

end KleoStaticFiles
